import Mathlib

/-!
Verification of the RPC layer in `kochen/ipcutil.py`.

The development shallowly embeds the parts of `ipcutil.py` that the claims
touch: the control-status vocabulary (`CtrlMsg`), the dispatch table held by
`ServerInternal`, the per-message body of the serve loop `ServerInternal._r`,
the outer listen/accept loop `ServerInternal.run`, registration
(`ServerInternal.register`, `Server.register` for instances via
`extract_methods`), and the client side `ClientInternal.read` / `call`.

Python values transported over the pickled connection are modelled by `Val`;
Python callables by `Fn` (argument lists to a result or a raised error value);
dictionaries by association lists in insertion order.  Strings use Lean
strings, with `pyLower` modelling `str.lower` (ASCII case mapping, which is
what every command name in the module exercises).
-/

namespace Ipcutil

/-- Model of `str.lower` on one character: ASCII upper-case letters are mapped
to lower-case, everything else is left unchanged. -/
def lowerChar (c : Char) : Char :=
  if 65 ≤ c.toNat ∧ c.toNat ≤ 90 then Char.ofNat (c.toNat + 32) else c

/-- Model of `str.lower`, applied character-wise. -/
def pyLower (s : String) : String := String.mk (s.data.map lowerChar)

/-- A single-quote character, used when rendering Python f-strings. -/
def sq : String := String.singleton (Char.ofNat 39)

/-- Python values carried in requests, responses and raised errors. -/
inductive Val where
  | none
  | str (s : String)
  | int (n : Int)
  | bool (b : Bool)
  | exc (ty : String) (msg : String)
deriving DecidableEq

/-- Python `str()` of a value, as used inside f-string interpolation. -/
def pyStr : Val → String
  | .none => ("None")
  | .str s => s
  | .int n => toString n
  | .bool b => if b then ("True") else ("False")
  | .exc _ msg => msg

/-- Control status codes (`class CtrlMsg(enum.Enum)`). -/
inductive CtrlMsg where
  | OK
  | ERROR
  | ERROR_FORWARDED
  | INFO
deriving DecidableEq

/-- Numeric value of each control status (`CtrlMsg.value`). -/
def CtrlMsg.value : CtrlMsg → Nat
  | .OK => 200
  | .ERROR => 400
  | .ERROR_FORWARDED => 500
  | .INFO => 100

/-- Reconstruction of a `CtrlMsg` from a status code (`CtrlMsg(status_code)`);
an unknown code makes the Python constructor raise, modelled by `none`. -/
def CtrlMsg.ofValue (n : Nat) : Option CtrlMsg :=
  if n = 200 then some .OK
  else if n = 400 then some .ERROR
  else if n = 500 then some .ERROR_FORWARDED
  else if n = 100 then some .INFO
  else Option.none

/-- A server response `(status_code, data)` as sent by `send` in `_r`. -/
abbrev Response := Nat × Val

/-- A registered Python callable: its behaviour on `(args, kwargs)` (returning
a value or raising an error value), its `__doc__`, and its `__name__`. -/
structure Fn where
  run : List Val → List (String × Val) → Except Val Val
  doc : Option String := Option.none
  pyname : String := ("")

/-- A request message `(command, args, kwargs)` as sent by `ClientInternal.write`. -/
structure Request where
  command : String
  args : List Val
  kwargs : List (String × Val)

/-- The mutable server fields the claims touch: the restart flag and the
dispatch table `registered_calls` (a dict in insertion order). -/
structure ServerState where
  restart : Bool := true
  registered_calls : List (String × Fn) := []

/-- The `auxiliary_calls` table set up in `ServerInternal.__init__`; both
entries hold `None`. -/
def auxiliary_calls : List (String × Option Fn) :=
  [(("help"), Option.none), (("close"), Option.none)]

/-- Membership test `ServerInternal.has_registered`. -/
def has_registered (s : ServerState) (name : String) : Bool :=
  (s.registered_calls.lookup name).isSome

/-- The command lookup in `_r`:
`self.registered_calls.get(command, self.auxiliary_calls.get(command, None))`.
The key may be any Python value (the `help` path passes `args[0]` through
unchanged); since every key of both dicts is a string, a non-string key never
matches. -/
def lookupFn (s : ServerState) (key : Val) : Option Fn :=
  match key with
  | .str k =>
    match s.registered_calls.lookup k with
    | some f => some f
    | Option.none => (auxiliary_calls.lookup k).getD Option.none
  | _ => Option.none

/-- The listing text built by `ServerInternal.help_client`: the Python `repr`
of the list of registered command names, interpolated into an f-string. -/
def pyStrListRepr (xs : List String) : String :=
  ("[") ++ String.intercalate (", ") (xs.map fun s => sq ++ s ++ sq) ++ ("]")

/-- Model of `ServerInternal.help_client`. -/
def help_client (s : ServerState) : String :=
  ("Available commands: ") ++ pyStrListRepr (s.registered_calls.map Prod.fst)

/-- The f-string `f"Command '{command}' is not registered."` from `_r`. -/
def notRegMsg (key : Val) : String :=
  ("Command ") ++ sq ++ pyStr key ++ sq ++ (" is not registered.")

/-- Outcome of processing one received message inside `_r`: the updated server
state, the response sent (if any), whether the `while True` loop continues,
and whether the server closed the connection itself. -/
structure StepOut where
  state : ServerState
  sent : Option Response
  looping : Bool
  closedConn : Bool

/-- Send a reply and continue the loop (`send(...)` followed by `continue`). -/
def sendCont (s : ServerState) (m : CtrlMsg) (d : Val) : StepOut :=
  { state := s, sent := some (m.value, d), looping := true, closedConn := false }

/-- The `is_help` branch of `_r`: the target is `args[0]`, looked up verbatim
(not lower-cased); an unknown target gets the explanatory string plus the full
listing as `INFO`, a known one gets its `__doc__` (or a default) as `INFO`. -/
def helpReply (s : ServerState) (target : Val) : StepOut :=
  match lookupFn s target with
  | Option.none =>
    sendCont s .INFO (Val.str (notRegMsg target ++ ("\n") ++ help_client s))
  | some f =>
    sendCont s .INFO (Val.str (f.doc.getD ("No help available.")))

/-- The dispatch branch of `_r`: unknown commands get `ERROR` text; a found
callable is invoked inside the failure boundary, answering `OK` with the
result or `ERROR_FORWARDED` with the raised error value. -/
def dispatchReply (s : ServerState) (key : Val) (args : List Val)
    (kwargs : List (String × Val)) : StepOut :=
  match lookupFn s key with
  | Option.none => sendCont s .ERROR (Val.str (notRegMsg key))
  | some f =>
    match f.run args kwargs with
    | .ok result => sendCont s .OK result
    | .error e => sendCont s .ERROR_FORWARDED e

/-- One iteration of the message loop in `ServerInternal._r`, after a message
has been received: lower-case the command, then handle `close`, `help`
(with or without a target) and ordinary dispatch. -/
def serverStep (s : ServerState) (msg : Request) : StepOut :=
  let command := pyLower msg.command
  if command = ("close") then
    { state := { s with restart := false }, sent := Option.none,
      looping := false, closedConn := true }
  else if command = ("help") then
    match msg.args with
    | [] => sendCont s .INFO (Val.str (help_client s))
    | a :: _ => helpReply s a
  else
    dispatchReply s (Val.str command) msg.args msg.kwargs

/-- The whole of `_r` on one connection: process messages until the loop
breaks (an exhausted list models the client ending the connection, which `_r`
observes as `EOFError`/`ConnectionResetError` and breaks on). Returns the
final state and the responses sent, in order. -/
def serveConn (s : ServerState) (msgs : List Request) : ServerState × List Response :=
  match msgs with
  | [] => (s, [])
  | msg :: rest =>
    let out := serverStep s msg
    if out.looping then
      let next := serveConn out.state rest
      (next.1, out.sent.toList ++ next.2)
    else (out.state, out.sent.toList)

/-- The `while self.restart` loop of `ServerInternal.run`: for each incoming
connection, if the restart flag is still set, create a listener, accept and
serve the connection; otherwise stop.  Returns how many listeners were
created (equivalently, how many connections were accepted) and the final
state. -/
def runLoop (s : ServerState) (conns : List (List Request)) : Nat × ServerState :=
  match conns with
  | [] => (0, s)
  | c :: cs =>
    if s.restart then
      let s2 := (serveConn s c).1
      let rest := runLoop s2 cs
      (1 + rest.1, rest.2)
    else (0, s)

/-- Model of `ServerInternal.run`: the helper first sets `self.restart = True`
and then runs the listen/accept/serve loop. -/
def run (s : ServerState) (conns : List (List Request)) : Nat × ServerState :=
  runLoop { s with restart := true } conns

/-- Model of `ServerInternal.register`: resolve the name (inspecting
`f.__name__` when none is given, rejecting anonymous lambdas), lower-case it,
refuse duplicates with a `False` return, otherwise insert.  The returned
state is the table after the call; the `Except` carries the raised
`ValueError` or the boolean success result. -/
def registerNamed (s : ServerState) (f : Fn) (name0 : String) :
    ServerState × Except String Bool :=
  let name := pyLower name0
  if has_registered s name then
    (s, .ok false)
  else
    ({ s with registered_calls := s.registered_calls ++ [(name, f)] }, .ok true)

/-- Entry point `ServerInternal.register(f, name=None)`. -/
def register (s : ServerState) (f : Fn) (name : Option String) :
    ServerState × Except String Bool :=
  match name with
  | Option.none =>
    if f.pyname = ("<lambda>") then
      (s, .error ("Name must be given for anonymous functions."))
    else
      registerNamed s f f.pyname
  | some n => registerNamed s f n

/-- The callable the server loop would invoke for an incoming command string
`c`: `_r` lower-cases the command before the table lookup. -/
def dispatchOf (s : ServerState) (c : String) : Option Fn :=
  lookupFn s (Val.str (pyLower c))

/-! Reflection over a class, for `Server.register` on a live instance
(`extract_methods` and the registration loop). -/

/-- A Python `property` object: its three optional accessors. -/
structure PyProperty where
  fget : Option Fn := Option.none
  fset : Option Fn := Option.none
  fdel : Option Fn := Option.none

/-- The reflected surface of a class, as `inspect.getmembers` reports it:
the function-valued attributes and the `property`-valued attributes, each
with their names (in the order `getmembers` yields them). -/
structure PyClass where
  methods : List (String × Fn)
  props : List (String × PyProperty)

/-- Model of `name.startswith("__")`-style tests, by character-list
comparison. -/
def pyStartswith (s pre : String) : Bool := pre.data.isPrefixOf s.data

/-- The inner `for func in ("get", "set", "del")` loop of `extract_methods`:
for each accessor that exists, yield `(f"{func}_{name}", name, method)`. -/
def accessorEntries (name : String) (p : PyProperty) : List (String × String × Fn) :=
  (match p.fget with
   | Option.none => []
   | some m => [(("get_") ++ name, name, m)]) ++
  (match p.fset with
   | Option.none => []
   | some m => [(("set_") ++ name, name, m)]) ++
  (match p.fdel with
   | Option.none => []
   | some m => [(("del_") ++ name, name, m)])

/-- Model of `extract_methods(cls, prefix)`: public (non-dunder) methods
yield `(name, name, method)` with the prefix applied; public properties
yield one entry per existing accessor. -/
def extract_methods (cls : PyClass) (pfx : String) : List (String × String × Fn) :=
  (cls.methods.filter (fun p => ¬ pyStartswith p.1 ("__"))).map
    (fun p => (pfx ++ p.1, pfx ++ p.1, p.2)) ++
  (cls.props.filter (fun p => ¬ pyStartswith p.1 ("__"))).flatMap
    (fun p => accessorEntries (pfx ++ p.1) p.2)

/-- The registration loop of `Server.register` when given a live instance:
for each `(command, name, method)` from `extract_methods`, the synthesized
closure is registered under `command` via `ServerInternal.register`
(the `registered_props` bookkeeping, which only feeds help text, is not
modelled).  Returns the new state and the `True` the method returns. -/
def registerInstance (s : ServerState) (cls : PyClass) (name : Option String) :
    ServerState × Bool :=
  let pfx := match name with
    | Option.none => ("")
    | some n => n
  let s2 := (extract_methods cls pfx).foldl
    (fun st e => (register st e.2.2 (some e.1)).1) s
  (s2, true)

/-! Client side: `ClientInternal.read` and `ClientInternal.call`. -/

/-- Errors a client-side call can raise: the locally constructed
`BadRequest`, the re-raised forwarded error value, the `ValueError` from an
unknown status code, and the transport-level exceptions. -/
inductive PyErr where
  | badRequest (v : Val)
  | reraised (v : Val)
  | badStatus (code : Nat)
  | eofError
  | connectionReset
  | brokenPipe
deriving DecidableEq

/-- Whether an error is a connection-level (transport) exception. -/
def PyErr.isTransport : PyErr → Bool
  | .eofError => true
  | .connectionReset => true
  | .brokenPipe => true
  | _ => false

/-- What one `ClientInternal.read` call does once a response is in hand:
optionally pipes text to the `pydoc` pager, and either returns a value or
raises. -/
structure ReadOut where
  paged : Option Val := Option.none
  result : Except PyErr Val

/-- Model of `ClientInternal.read(blocking)` when a response is available
(so `read_raw` returns it for either value of `blocking`): `OK` returns the
payload; `INFO` pipes the payload to the pager and returns `None`; `ERROR`
raises `BadRequest(payload)`; `ERROR_FORWARDED` re-raises the payload value;
an unrecognised status code makes `CtrlMsg(status_code)` raise. -/
def clientRead (_blocking : Bool) (resp : Response) : ReadOut :=
  match CtrlMsg.ofValue resp.1 with
  | Option.none => { result := .error (.badStatus resp.1) }
  | some .OK => { result := .ok resp.2 }
  | some .INFO => { paged := some resp.2, result := .ok Val.none }
  | some .ERROR => { result := .error (.badRequest resp.2) }
  | some .ERROR_FORWARDED => { result := .error (.reraised resp.2) }

/-- What `connection.recv()` inside a read can yield: a response, or one of
the two transport exceptions the call loop catches. -/
inductive RecvOut where
  | got (resp : Response)
  | eof
  | reset

/-- A `self.read()` attempt including its transport outcome: `recv` raising
`EOFError`/`ConnectionResetError` surfaces as that exception. -/
def readFull (r : RecvOut) : ReadOut :=
  match r with
  | .got resp => clientRead true resp
  | .eof => { result := .error .eofError }
  | .reset => { result := .error .connectionReset }

/-- One iteration of the retry loop in `ClientInternal.call`, as seen from
the network: the connection attempt is refused, the write raises
`BrokenPipeError`, or the write succeeds and the read runs with some
`RecvOut`. -/
inductive NetEvent where
  | connectRefused
  | writeBrokenPipe
  | recv (r : RecvOut)

/-- Model of `ClientInternal.call`: loop over the successive transport
events; a refused connection sleeps and retries, a broken-pipe write closes
and retries, a read that raises `EOFError`/`ConnectionResetError` closes and
retries, and anything else is returned (or raised) to the caller.  `none`
means the trace ended with the call still retrying. -/
def clientCall : List NetEvent → Option (Except PyErr Val)
  | [] => Option.none
  | .connectRefused :: rest => clientCall rest
  | .writeBrokenPipe :: rest => clientCall rest
  | .recv r :: rest =>
    match (readFull r).result with
    | .error .eofError => clientCall rest
    | .error .connectionReset => clientCall rest
    | res => some res

/-! Helper lemmas. -/

theorem toNat_ofNat_of_lt {n : Nat} (h : n < 55296) : (Char.ofNat n).toNat = n := by
  unfold Char.ofNat
  rw [dif_pos (Or.inl h)]
  simp [Char.ofNatAux, Char.toNat, UInt32.ofNat', UInt32.toNat, BitVec.toNat_ofNatLt]

theorem lowerChar_idem (c : Char) : lowerChar (lowerChar c) = lowerChar c := by
  unfold lowerChar
  split
  · next h =>
    have h2 : (Char.ofNat (c.toNat + 32)).toNat = c.toNat + 32 :=
      toNat_ofNat_of_lt (by omega)
    rw [if_neg]
    omega
  · rfl

theorem pyLower_idem (s : String) : pyLower (pyLower s) = pyLower s := by
  cases s with
  | mk data =>
    have hfun : lowerChar ∘ lowerChar = lowerChar := funext fun c => lowerChar_idem c
    simp [pyLower, List.map_map, hfun]

theorem lookup_append (l1 l2 : List (String × Fn)) (k : String) :
    (l1 ++ l2).lookup k = ((l1.lookup k).orElse fun _ => l2.lookup k) := by
  induction l1 with
  | nil => simp [List.lookup]
  | cons a t ih =>
    by_cases hk : k = a.1
    · simp [List.lookup, hk]
    · have hb : (k == a.1) = false := beq_false_of_ne hk
      simp [List.lookup, hb, ih]

theorem auxiliary_lookup_none {k : String} (h1 : k ≠ ("help")) (h2 : k ≠ ("close")) :
    auxiliary_calls.lookup k = Option.none := by
  have b1 : (k == ("help")) = false := beq_false_of_ne h1
  have b2 : (k == ("close")) = false := beq_false_of_ne h2
  simp [auxiliary_calls, List.lookup, b1, b2]

theorem lookupFn_eq_registered {s : ServerState} {k : String}
    (h1 : k ≠ ("help")) (h2 : k ≠ ("close")) :
    lookupFn s (Val.str k) = s.registered_calls.lookup k := by
  simp only [lookupFn, auxiliary_lookup_none h1 h2]
  cases s.registered_calls.lookup k <;> rfl

/-! Concrete values used by the witness instances. -/

/-- A concrete callable returning `1`. -/
def fnWitOne : Fn := { run := fun _ _ => .ok (Val.int 1) }

/-- A second concrete callable, returning `2`. -/
def fnWitTwo : Fn := { run := fun _ _ => .ok (Val.int 2) }

/-- A concrete anonymous callable (`__name__` is `<lambda>`). -/
def fnWitLambda : Fn :=
  { run := fun _ _ => .ok (Val.int 3), pyname := ("<lambda>") }

/-- A concrete callable that always raises a `ValueError`. -/
def fnWitRaise : Fn :=
  { run := fun _ _ => .error (Val.exc ("ValueError") ("boom")) }

/-! Claim theorems. -/

/-- C3: when the server loop receives a request whose command lower-cases to
`close`, it stops that connection's serve loop without replying, closes the
connection, clears the restart flag before the loop exits, and the outer run
loop creates no further listener, however many clients try to connect
afterwards. -/
theorem close_stops_server (s : ServerState) (cmd : String) (args : List Val)
    (kwargs : List (String × Val)) (rest : List Request) (conns : List (List Request))
    (hcmd : pyLower cmd = ("close")) :
    serverStep s ⟨cmd, args, kwargs⟩ =
      { state := { s with restart := false }, sent := Option.none,
        looping := false, closedConn := true } ∧
    serveConn s (⟨cmd, args, kwargs⟩ :: rest) = ({ s with restart := false }, []) ∧
    run s ((⟨cmd, args, kwargs⟩ :: rest) :: conns) = (1, { s with restart := false }) := by
  have hstep : ∀ t : ServerState, serverStep t ⟨cmd, args, kwargs⟩ =
      { state := { t with restart := false }, sent := Option.none,
        looping := false, closedConn := true } := by
    intro t
    simp [serverStep, hcmd]
  have hconn : ∀ t : ServerState, serveConn t (⟨cmd, args, kwargs⟩ :: rest) =
      ({ t with restart := false }, []) := by
    intro t
    simp [serveConn, hstep t]
  have hrest : runLoop { s with restart := false } conns =
      (0, { s with restart := false }) := by
    cases conns <;> simp [runLoop]
  refine ⟨hstep s, hconn s, ?_⟩
  simp [run, runLoop, hconn _, hrest]

/-- Witness for C3 at a concrete input. -/
theorem close_stops_server_witness :
    pyLower ("CLOSE") = ("close") ∧
    (serverStep {} ⟨("CLOSE"), [], []⟩ =
      { state := { restart := false }, sent := Option.none,
        looping := false, closedConn := true } ∧
    serveConn {} [⟨("CLOSE"), [], []⟩] = ({ restart := false }, []) ∧
    run {} [[⟨("CLOSE"), [], []⟩]] = (1, { restart := false })) :=
  ⟨by decide, close_stops_server {} ("CLOSE") [] [] [] [] (by decide)⟩

/-- C4: registering a name whose lower-cased form is already bound returns
`False` (a warning, not an error), leaves the table unchanged, and the
originally bound callable is still the one command dispatch resolves to. -/
theorem register_duplicate_rejected (s : ServerState) (g f0 : Fn) (n : String)
    (hpresent : s.registered_calls.lookup (pyLower n) = some f0) :
    register s g (some n) = (s, Except.ok false) ∧
    dispatchOf (register s g (some n)).1 n = some f0 := by
  have hdup : has_registered s (pyLower n) = true := by
    simp [has_registered, hpresent]
  have hr : register s g (some n) = (s, Except.ok false) := by
    simp [register, registerNamed, hdup]
  refine ⟨hr, ?_⟩
  rw [hr]
  simp [dispatchOf, lookupFn, hpresent]

/-- Witness for C4 at a concrete input. -/
theorem register_duplicate_rejected_witness :
    ({ registered_calls := [(("f"), fnWitOne)] } : ServerState).registered_calls.lookup
        (pyLower ("f")) = some fnWitOne ∧
    (register { registered_calls := [(("f"), fnWitOne)] } fnWitTwo (some ("f")) =
        ({ registered_calls := [(("f"), fnWitOne)] }, Except.ok false) ∧
      dispatchOf (register { registered_calls := [(("f"), fnWitOne)] } fnWitTwo
          (some ("f"))).1 ("f") = some fnWitOne) :=
  ⟨rfl, register_duplicate_rejected { registered_calls := [(("f"), fnWitOne)] }
    fnWitTwo fnWitOne ("f") rfl⟩

/-- C5: a successfully registered name is stored lower-cased, and the server
loop lower-cases the incoming command before lookup, so dispatch of any case
variant of the registered name equals dispatch of its lower-cased form and
resolves to the registered callable. -/
theorem dispatch_case_insensitive (s s1 : ServerState) (f : Fn) (n c : String)
    (hreg : register s f (some n) = (s1, Except.ok true))
    (hc : pyLower c = pyLower n) :
    dispatchOf s1 c = dispatchOf s1 (pyLower c) ∧ dispatchOf s1 c = some f := by
  have hreg2 : registerNamed s f n = (s1, Except.ok true) := hreg
  unfold registerNamed at hreg2
  by_cases hdup : has_registered s (pyLower n)
  · simp [hdup] at hreg2
  · rw [if_neg hdup] at hreg2
    have hs1 : { s with registered_calls := s.registered_calls ++ [(pyLower n, f)] } = s1 :=
      congrArg Prod.fst hreg2
    have hnone : s.registered_calls.lookup (pyLower n) = Option.none := by
      cases hl : s.registered_calls.lookup (pyLower n) with
      | none => rfl
      | some v => exact absurd (by simp [has_registered, hl]) hdup
    have hlook : s1.registered_calls.lookup (pyLower n) = some f := by
      rw [← hs1]
      show (s.registered_calls ++ [(pyLower n, f)]).lookup (pyLower n) = some f
      rw [lookup_append, hnone]
      simp [List.lookup]
    constructor
    · simp only [dispatchOf, pyLower_idem]
    · simp [dispatchOf, lookupFn, hc, hlook]

/-- Witness for C5 at a concrete input. -/
theorem dispatch_case_insensitive_witness :
    register {} fnWitOne (some ("Sq")) =
      ({ registered_calls := [(("sq"), fnWitOne)] }, Except.ok true) ∧
    pyLower ("SQ") = pyLower ("Sq")  ∧
    (dispatchOf { registered_calls := [(("sq"), fnWitOne)] } ("SQ") =
        dispatchOf { registered_calls := [(("sq"), fnWitOne)] } (pyLower ("SQ")) ∧
      dispatchOf { registered_calls := [(("sq"), fnWitOne)] } ("SQ") = some fnWitOne) :=
  ⟨rfl, by decide,
    dispatch_case_insensitive {} { registered_calls := [(("sq"), fnWitOne)] }
      fnWitOne ("Sq") ("SQ") rfl (by decide)⟩

/-- C9: registering a lambda (whose `__name__` is `<lambda>`) without an
explicit name raises a `ValueError` at the call site and leaves the table
unchanged, while the same registration with an explicit fresh name
succeeds. -/
theorem lambda_needs_name (s : ServerState) (f : Fn) (n : String)
    (hlam : f.pyname = ("<lambda>"))
    (hfresh : has_registered s (pyLower n) = false) :
    register s f Option.none =
      (s, Except.error ("Name must be given for anonymous functions.")) ∧
    register s f (some n) =
      ({ s with registered_calls := s.registered_calls ++ [(pyLower n, f)] },
        Except.ok true) := by
  constructor
  · simp [register, hlam]
  · simp [register, registerNamed, hfresh]

/-- Witness for C9 at a concrete input. -/
theorem lambda_needs_name_witness :
    fnWitLambda.pyname = ("<lambda>") ∧
    has_registered {} (pyLower ("cube")) = false ∧
    (register {} fnWitLambda Option.none =
        ({}, Except.error ("Name must be given for anonymous functions.")) ∧
      register {} fnWitLambda (some ("cube")) =
        ({ registered_calls := [(("cube"), fnWitLambda)] }, Except.ok true)) :=
  ⟨rfl, rfl, lambda_needs_name {} fnWitLambda ("cube") rfl rfl⟩

/-- C1: when a dispatched registered callable raises, the server answers
`ERROR_FORWARDED` with the raised error value as payload, the serve loop
keeps processing the remaining requests exactly as before, and the client
`read` re-raises that payload value. -/
theorem forwarded_error (s : ServerState) (cmd : String) (args : List Val)
    (kwargs : List (String × Val)) (f : Fn) (e : Val) (rest : List Request)
    (hncl : pyLower cmd ≠ ("close")) (hnh : pyLower cmd ≠ ("help"))
    (hf : lookupFn s (Val.str (pyLower cmd)) = some f)
    (herr : f.run args kwargs = .error e) :
    serverStep s ⟨cmd, args, kwargs⟩ =
      { state := s, sent := some (CtrlMsg.ERROR_FORWARDED.value, e),
        looping := true, closedConn := false } ∧
    serveConn s (⟨cmd, args, kwargs⟩ :: rest) =
      ((serveConn s rest).1,
        (CtrlMsg.ERROR_FORWARDED.value, e) :: (serveConn s rest).2) ∧
    (clientRead true (CtrlMsg.ERROR_FORWARDED.value, e)).result =
      Except.error (.reraised e) := by
  have hstep : serverStep s ⟨cmd, args, kwargs⟩ =
      { state := s, sent := some (CtrlMsg.ERROR_FORWARDED.value, e),
        looping := true, closedConn := false } := by
    simp only [serverStep]
    rw [if_neg hncl, if_neg hnh]
    simp [dispatchReply, hf, herr, sendCont]
  refine ⟨hstep, ?_, rfl⟩
  simp [serveConn, hstep]

/-- Witness for C1 at a concrete input. -/
theorem forwarded_error_witness :
    pyLower ("f") ≠ ("close") ∧
    lookupFn { registered_calls := [(("f"), fnWitRaise)] } (Val.str (pyLower ("f"))) =
      some fnWitRaise ∧
    fnWitRaise.run [] [] = .error (Val.exc ("ValueError") ("boom")) ∧
    (serverStep { registered_calls := [(("f"), fnWitRaise)] } ⟨("f"), [], []⟩ =
      { state := { registered_calls := [(("f"), fnWitRaise)] },
        sent := some (CtrlMsg.ERROR_FORWARDED.value, Val.exc ("ValueError") ("boom")),
        looping := true, closedConn := false } ∧
    serveConn { registered_calls := [(("f"), fnWitRaise)] } [⟨("f"), [], []⟩] =
      ((serveConn { registered_calls := [(("f"), fnWitRaise)] } []).1,
        (CtrlMsg.ERROR_FORWARDED.value, Val.exc ("ValueError") ("boom")) ::
          (serveConn { registered_calls := [(("f"), fnWitRaise)] } []).2) ∧
    (clientRead true (CtrlMsg.ERROR_FORWARDED.value,
        Val.exc ("ValueError") ("boom"))).result =
      Except.error (.reraised (Val.exc ("ValueError") ("boom")))) :=
  ⟨by decide, rfl, rfl,
    forwarded_error { registered_calls := [(("f"), fnWitRaise)] } ("f") [] []
      fnWitRaise (Val.exc ("ValueError") ("boom")) [] (by decide) (by decide) rfl rfl⟩

/-- C2: a non-help request naming an unknown, non-auxiliary command is
answered with status `ERROR` whose payload is a plain string containing that
command name, the loop continues, and the client `read` raises the locally
constructed `BadRequest` carrying exactly that text. -/
theorem unknown_command_error (s : ServerState) (c : String) (args : List Val)
    (kwargs : List (String × Val))
    (hlow : pyLower c = c) (hncl : c ≠ ("close")) (hnh : c ≠ ("help"))
    (habs : s.registered_calls.lookup c = Option.none) :
    serverStep s ⟨c, args, kwargs⟩ =
      { state := s,
        sent := some (CtrlMsg.ERROR.value, Val.str (notRegMsg (Val.str c))),
        looping := true, closedConn := false } ∧
    (∃ pre post, notRegMsg (Val.str c) = pre ++ c ++ post) ∧
    (clientRead true (CtrlMsg.ERROR.value, Val.str (notRegMsg (Val.str c)))).result =
      Except.error (.badRequest (Val.str (notRegMsg (Val.str c)))) := by
  have hl : lookupFn s (Val.str c) = Option.none := by
    rw [lookupFn_eq_registered hnh hncl]
    exact habs
  refine ⟨?_, ⟨("Command ") ++ sq, sq ++ (" is not registered."), ?_⟩, rfl⟩
  · simp only [serverStep, hlow]
    rw [if_neg hncl, if_neg hnh]
    simp [dispatchReply, hl, sendCont]
  · simp [notRegMsg, pyStr, String.append_assoc]

/-- Witness for C2 at a concrete input. -/
theorem unknown_command_error_witness :
    pyLower ("nope") = ("nope") ∧
    (({} : ServerState)).registered_calls.lookup ("nope") = Option.none ∧
    (serverStep {} ⟨("nope"), [], []⟩ =
      { state := {},
        sent := some (CtrlMsg.ERROR.value, Val.str (notRegMsg (Val.str ("nope")))),
        looping := true, closedConn := false } ∧
    (∃ pre post, notRegMsg (Val.str ("nope")) = pre ++ ("nope") ++ post) ∧
    (clientRead true (CtrlMsg.ERROR.value,
        Val.str (notRegMsg (Val.str ("nope"))))).result =
      Except.error (.badRequest (Val.str (notRegMsg (Val.str ("nope")))))) :=
  ⟨by decide, rfl,
    unknown_command_error {} ("nope") [] [] (by decide) (by decide) (by decide) rfl⟩

/-- C10: the `help` target is looked up case-sensitively: for a command
registered under lower-case name `n`, asking `help` for a case variant `c`
of `n` yields the not-registered `INFO` reply (explanatory string plus the
full listing) rather than the documentation, although a direct request
naming `c` dispatches successfully, and `help` for `n` itself does return
the documentation. -/
theorem help_target_case_sensitive (s : ServerState) (n c : String) (f : Fn)
    (args : List Val) (kwargs kw1 kw2 : List (String × Val)) (v : Val)
    (hreg : s.registered_calls.lookup n = some f)
    (hlow : pyLower c = n) (_hne : c ≠ n)
    (habs : s.registered_calls.lookup c = Option.none)
    (hnh : n ≠ ("help")) (hncl : n ≠ ("close"))
    (hok : f.run args kwargs = .ok v) :
    serverStep s ⟨("help"), [Val.str c], kw1⟩ =
      { state := s,
        sent := some (CtrlMsg.INFO.value,
          Val.str (notRegMsg (Val.str c) ++ ("\n") ++ help_client s)),
        looping := true, closedConn := false } ∧
    serverStep s ⟨c, args, kwargs⟩ =
      { state := s, sent := some (CtrlMsg.OK.value, v),
        looping := true, closedConn := false } ∧
    serverStep s ⟨("help"), [Val.str n], kw2⟩ =
      { state := s,
        sent := some (CtrlMsg.INFO.value,
          Val.str (f.doc.getD ("No help available."))),
        looping := true, closedConn := false } := by
  have hch : c ≠ ("help") := by
    intro h
    apply hnh
    rw [← hlow, h]
    decide
  have hcc : c ≠ ("close") := by
    intro h
    apply hncl
    rw [← hlow, h]
    decide
  have hhelp : ∀ kw : List (String × Val), ∀ a : Val,
      serverStep s ⟨("help"), [a], kw⟩ = helpReply s a := by
    intro kw a
    simp only [serverStep]
    rw [show pyLower ("help") = ("help") from by decide]
    rw [if_neg (by decide), if_pos rfl]
  refine ⟨?_, ?_, ?_⟩
  · rw [hhelp kw1 (Val.str c)]
    have hl : lookupFn s (Val.str c) = Option.none := by
      rw [lookupFn_eq_registered hch hcc]
      exact habs
    simp [helpReply, hl, sendCont]
  · simp only [serverStep, hlow]
    rw [if_neg hncl, if_neg hnh]
    have hl : lookupFn s (Val.str n) = some f := by
      rw [lookupFn_eq_registered hnh hncl]
      exact hreg
    simp [dispatchReply, hl, hok, sendCont]
  · rw [hhelp kw2 (Val.str n)]
    have hl : lookupFn s (Val.str n) = some f := by
      rw [lookupFn_eq_registered hnh hncl]
      exact hreg
    simp [helpReply, hl, sendCont]

/-- Witness for C10 at a concrete input. -/
theorem help_target_case_sensitive_witness :
    ({ registered_calls := [(("f"), fnWitOne)] } : ServerState).registered_calls.lookup
        ("f") = some fnWitOne ∧
    pyLower ("F") = ("f") ∧
    (serverStep { registered_calls := [(("f"), fnWitOne)] } ⟨("help"), [Val.str ("F")], []⟩ =
      { state := { registered_calls := [(("f"), fnWitOne)] },
        sent := some (CtrlMsg.INFO.value,
          Val.str (notRegMsg (Val.str ("F")) ++ ("\n") ++
            help_client { registered_calls := [(("f"), fnWitOne)] })),
        looping := true, closedConn := false } ∧
    serverStep { registered_calls := [(("f"), fnWitOne)] } ⟨("F"), [], []⟩ =
      { state := { registered_calls := [(("f"), fnWitOne)] },
        sent := some (CtrlMsg.OK.value, Val.int 1),
        looping := true, closedConn := false } ∧
    serverStep { registered_calls := [(("f"), fnWitOne)] } ⟨("help"), [Val.str ("f")], []⟩ =
      { state := { registered_calls := [(("f"), fnWitOne)] },
        sent := some (CtrlMsg.INFO.value,
          Val.str (fnWitOne.doc.getD ("No help available."))),
        looping := true, closedConn := false }) :=
  ⟨rfl, by decide,
    help_target_case_sensitive { registered_calls := [(("f"), fnWitOne)] }
      ("f") ("F") fnWitOne [] [] [] [] (Val.int 1)
      rfl (by decide) (by decide) rfl (by decide) (by decide) rfl⟩

/-! Lemmas for the client call loop. -/

theorem clientRead_not_transport (b : Bool) (resp : Response) (e : PyErr)
    (h : (clientRead b resp).result = Except.error e) : e.isTransport = false := by
  unfold clientRead at h
  cases hv : CtrlMsg.ofValue resp.1 with
  | none =>
    rw [hv] at h
    simp only [Except.error.injEq] at h
    rw [← h]
    rfl
  | some m =>
    cases m <;> rw [hv] at h <;> simp only [Except.error.injEq] at h <;>
      first
        | exact absurd h (by simp)
        | (rw [← h]; rfl)

/-- C7: the client `call` loop never surfaces a transport fault: whatever the
sequence of connection refusals, broken-pipe writes and EOF/reset reads, if
`call` returns at all it returns the interpretation of a successfully
received response, and the error it may re-raise is never a connection-level
exception. -/
theorem call_never_raises_transport (t : List NetEvent) (r : Except PyErr Val)
    (h : clientCall t = some r) :
    (∀ e, r = Except.error e → e.isTransport = false) ∧
    ∃ resp, NetEvent.recv (RecvOut.got resp) ∈ t ∧
      r = (clientRead true resp).result := by
  induction t with
  | nil => simp [clientCall] at h
  | cons a rest ih =>
    cases a with
    | connectRefused =>
      rcases ih (by simpa [clientCall] using h) with ⟨h1, resp, hm, hr⟩
      exact ⟨h1, resp, List.mem_cons_of_mem _ hm, hr⟩
    | writeBrokenPipe =>
      rcases ih (by simpa [clientCall] using h) with ⟨h1, resp, hm, hr⟩
      exact ⟨h1, resp, List.mem_cons_of_mem _ hm, hr⟩
    | recv rv =>
      cases rv with
      | eof =>
        rcases ih (by simpa [clientCall, readFull] using h) with ⟨h1, resp, hm, hr⟩
        exact ⟨h1, resp, List.mem_cons_of_mem _ hm, hr⟩
      | reset =>
        rcases ih (by simpa [clientCall, readFull] using h) with ⟨h1, resp, hm, hr⟩
        exact ⟨h1, resp, List.mem_cons_of_mem _ hm, hr⟩
      | got resp =>
        cases hres : (clientRead true resp).result with
        | ok v =>
          rw [show clientCall (NetEvent.recv (RecvOut.got resp) :: rest) =
              some (clientRead true resp).result from by
            simp [clientCall, readFull, hres]] at h
          rw [Option.some.injEq] at h
          refine ⟨?_, resp, List.mem_cons_self _ _, h.symm⟩
          intro e he
          rw [← h, hres] at he
          exact absurd he (by simp)
        | error e =>
          have htr := clientRead_not_transport true resp e hres
          cases e with
          | eofError => simp [PyErr.isTransport] at htr
          | connectionReset => simp [PyErr.isTransport] at htr
          | badRequest v =>
            rw [show clientCall (NetEvent.recv (RecvOut.got resp) :: rest) =
                some (clientRead true resp).result from by
              simp [clientCall, readFull, hres]] at h
            rw [Option.some.injEq] at h
            refine ⟨?_, resp, List.mem_cons_self _ _, h.symm⟩
            intro e1 he
            rw [← h, hres] at he
            rw [Except.error.injEq] at he
            rw [← he]
            rfl
          | reraised v =>
            rw [show clientCall (NetEvent.recv (RecvOut.got resp) :: rest) =
                some (clientRead true resp).result from by
              simp [clientCall, readFull, hres]] at h
            rw [Option.some.injEq] at h
            refine ⟨?_, resp, List.mem_cons_self _ _, h.symm⟩
            intro e1 he
            rw [← h, hres] at he
            rw [Except.error.injEq] at he
            rw [← he]
            rfl
          | badStatus code =>
            rw [show clientCall (NetEvent.recv (RecvOut.got resp) :: rest) =
                some (clientRead true resp).result from by
              simp [clientCall, readFull, hres]] at h
            rw [Option.some.injEq] at h
            refine ⟨?_, resp, List.mem_cons_self _ _, h.symm⟩
            intro e1 he
            rw [← h, hres] at he
            rw [Except.error.injEq] at he
            rw [← he]
            rfl
          | brokenPipe => simp [PyErr.isTransport] at htr

/-- Witness for C7 at a concrete input. -/
theorem call_never_raises_transport_witness :
    clientCall [NetEvent.connectRefused, NetEvent.writeBrokenPipe,
        NetEvent.recv RecvOut.eof, NetEvent.recv RecvOut.reset,
        NetEvent.recv (RecvOut.got (200, Val.int 42))] =
      some (Except.ok (Val.int 42)) ∧
    ((∀ e, (Except.ok (Val.int 42) : Except PyErr Val) = Except.error e →
        e.isTransport = false) ∧
      ∃ resp, NetEvent.recv (RecvOut.got resp) ∈
          [NetEvent.connectRefused, NetEvent.writeBrokenPipe,
            NetEvent.recv RecvOut.eof, NetEvent.recv RecvOut.reset,
            NetEvent.recv (RecvOut.got (200, Val.int 42))] ∧
        (Except.ok (Val.int 42) : Except PyErr Val) = (clientRead true resp).result) :=
  ⟨rfl, call_never_raises_transport
    [NetEvent.connectRefused, NetEvent.writeBrokenPipe,
      NetEvent.recv RecvOut.eof, NetEvent.recv RecvOut.reset,
      NetEvent.recv (RecvOut.got (200, Val.int 42))] (Except.ok (Val.int 42)) rfl⟩

/-- C8 counterexample: on an `INFO` response the client `read` pipes the
payload to the pager and returns `None` in both its modes (`blocking` true
or false), and `call` delivers `None` as well — no mode of `read`/`call`
returns the `INFO` payload to the caller as text. -/
theorem info_not_returned_counterexample :
    (clientRead true (CtrlMsg.INFO.value, Val.str ("docs"))).result =
      Except.ok Val.none ∧
    (clientRead false (CtrlMsg.INFO.value, Val.str ("docs"))).result =
      Except.ok Val.none ∧
    (clientRead true (CtrlMsg.INFO.value, Val.str ("docs"))).paged =
      some (Val.str ("docs")) ∧
    clientCall [NetEvent.recv (RecvOut.got (CtrlMsg.INFO.value, Val.str ("docs")))] =
      some (Except.ok Val.none) ∧
    Val.none ≠ Val.str ("docs") :=
  ⟨rfl, rfl, rfl, rfl, by decide⟩

/-- C8 (amended): an `INFO` payload is always delivered through the pager,
in every mode of `read`, and the value returned to the caller is `None`,
never the payload. -/
theorem info_always_paged (b : Bool) (v : Val) :
    clientRead b (CtrlMsg.INFO.value, v) =
      { paged := some v, result := Except.ok Val.none } := rfl

/-! Spec-side description of the instance-registration surface, for the
refinement comparison of C6. -/

/-- Following the spec wording: for one public property, up to three entry
names, `get_<name>`, `set_<name>`, `del_<name>`, only for the accessors that
actually exist. -/
def specAccessorNames (name : String) (p : PyProperty) : List String :=
  (match p.fget with
   | Option.none => []
   | some _ => [("get_") ++ name]) ++
  (match p.fset with
   | Option.none => []
   | some _ => [("set_") ++ name]) ++
  (match p.fdel with
   | Option.none => []
   | some _ => [("del_") ++ name])

/-- Following the spec wording: one entry per public (non-dunder) method,
under the method's own name, then the accessor entries of each public
property; dunder-prefixed members contribute nothing. -/
def specEntryNames (cls : PyClass) : List String :=
  (cls.methods.filter (fun p => ¬ pyStartswith p.1 ("__"))).map Prod.fst ++
  (cls.props.filter (fun p => ¬ pyStartswith p.1 ("__"))).flatMap
    (fun p => specAccessorNames p.1 p.2)

theorem accessorEntries_names (name : String) (p : PyProperty) :
    (accessorEntries name p).map (fun e => e.1) = specAccessorNames name p := by
  rcases p with ⟨g, st, d⟩
  cases g <;> cases st <;> cases d <;> simp [accessorEntries, specAccessorNames]

theorem extract_methods_names (cls : PyClass) :
    (extract_methods cls ("")).map (fun e => e.1) = specEntryNames cls := by
  have hemp : ∀ s : String, ("") ++ s = s := fun s => by
    cases s
    rfl
  unfold extract_methods specEntryNames
  rw [List.map_append]
  congr 1
  · rw [List.map_map]
    exact List.map_congr_left fun p _ => hemp p.1
  · rw [List.map_flatMap]
    refine List.flatMap_congr fun p _ => ?_
    rw [hemp p.1, accessorEntries_names]

theorem foldl_register_keys (entries : List (String × String × Fn)) (s : ServerState)
    (hlower : ∀ nm ∈ entries.map (fun e => e.1), pyLower nm = nm)
    (hnodup : (entries.map (fun e => e.1)).Nodup)
    (hdisj : ∀ nm ∈ entries.map (fun e => e.1),
      s.registered_calls.lookup nm = Option.none) :
    (entries.foldl (fun st e => (register st e.2.2 (some e.1)).1) s).registered_calls
      = s.registered_calls ++ entries.map (fun e => (e.1, e.2.2)) := by
  induction entries generalizing s with
  | nil => simp
  | cons a t ih =>
    have hla : pyLower a.1 = a.1 := hlower _ (by simp)
    have hda : s.registered_calls.lookup a.1 = Option.none := hdisj _ (by simp)
    have hreg : (register s a.2.2 (some a.1)).1 =
        { s with registered_calls := s.registered_calls ++ [(a.1, a.2.2)] } := by
      simp [register, registerNamed, hla, has_registered, hda]
    have hnotin : a.1 ∉ t.map (fun e => e.1) := by
      have := hnodup
      rw [List.map_cons, List.nodup_cons] at this
      exact this.1
    rw [List.foldl_cons, hreg,
      ih { s with registered_calls := s.registered_calls ++ [(a.1, a.2.2)] }
        (fun nm hm => hlower nm (by simp at hm ⊢; right; exact hm))
        (by
          have := hnodup
          rw [List.map_cons, List.nodup_cons] at this
          exact this.2)
        (fun nm hm => by
          have hne : nm ≠ a.1 := by
            intro hcontra
            exact hnotin (hcontra ▸ hm)
          have hs : s.registered_calls.lookup nm = Option.none :=
            hdisj nm (by simp at hm ⊢; right; exact hm)
          show (s.registered_calls ++ [(a.1, a.2.2)]).lookup nm = Option.none
          rw [lookup_append, hs]
          simp [List.lookup, beq_false_of_ne hne])]
    simp

/-- C6 (amended): registering a live instance (no prefix, starting from an
empty table) whose reflected public names are already lower-case and
pairwise distinct creates exactly the dispatch entries the spec describes:
one per public method under its own name, and per public property one entry
per accessor that actually exists, named `get_`/`set_`/`del_` plus the
property name; dunder-prefixed members create nothing.  Without those two
hypotheses the claim fails, because `ServerInternal.register` lower-cases
the entry name and refuses duplicates (see the counterexample below). -/
theorem instance_registration_entries (cls : PyClass)
    (hlower : ∀ nm ∈ (extract_methods cls ("")).map (fun e => e.1), pyLower nm = nm)
    (hnodup : ((extract_methods cls ("")).map (fun e => e.1)).Nodup) :
    (registerInstance {} cls Option.none).1.registered_calls.map Prod.fst
      = specEntryNames cls ∧
    (registerInstance {} cls Option.none).2 = true := by
  refine ⟨?_, rfl⟩
  show ((extract_methods cls ("")).foldl
      (fun st e => (register st e.2.2 (some e.1)).1) {}).registered_calls.map Prod.fst
    = specEntryNames cls
  rw [foldl_register_keys _ {} hlower hnodup (fun nm _ => rfl)]
  rw [← extract_methods_names cls]
  simp [List.map_map]

/-- Witness class for C6: one dunder method, one public method, a read/write
property, and a delete-only property. -/
def clsWit : PyClass :=
  { methods := [(("__init"), fnWitOne), (("m"), fnWitOne)],
    props := [(("p"), { fget := some fnWitOne, fset := some fnWitTwo }),
              (("q"), { fdel := some fnWitTwo })] }

/-- A class whose only public method name contains an upper-case letter. -/
def clsUpperWit : PyClass := { methods := [(("M"), fnWitOne)], props := [] }

/-- A class where a public method name collides with a property accessor
name. -/
def clsCollideWit : PyClass :=
  { methods := [(("get_p"), fnWitOne)],
    props := [(("p"), { fget := some fnWitTwo })] }

/-- C6 counterexample: the claim as stated fails on the code.  A public
method named `M` produces a dispatch entry under `m` (registration
lower-cases the name), not under the method's own name; and when a method
name collides with a property accessor name, the second registration is
refused, so the table does not contain one entry per method plus one per
existing accessor. -/
theorem instance_registration_counterexample :
    (registerInstance {} clsUpperWit Option.none).1.registered_calls.map Prod.fst ≠
      specEntryNames clsUpperWit ∧
    (registerInstance {} clsUpperWit Option.none).1.registered_calls.map Prod.fst =
      [("m")] ∧
    specEntryNames clsUpperWit = [("M")] ∧
    (registerInstance {} clsCollideWit Option.none).1.registered_calls.map Prod.fst ≠
      specEntryNames clsCollideWit ∧
    (registerInstance {} clsCollideWit Option.none).1.registered_calls.map Prod.fst =
      [("get_p")] ∧
    specEntryNames clsCollideWit = [("get_p"), ("get_p")] :=
  ⟨by decide, by decide, by decide, by decide, by decide, by decide⟩

/-- Witness for C6 at a concrete input. -/
theorem instance_registration_entries_witness :
    (∀ nm ∈ (extract_methods clsWit ("")).map (fun e => e.1), pyLower nm = nm) ∧
    ((extract_methods clsWit ("")).map (fun e => e.1)).Nodup ∧
    ((registerInstance {} clsWit Option.none).1.registered_calls.map Prod.fst
        = specEntryNames clsWit ∧
      (registerInstance {} clsWit Option.none).2 = true) :=
  ⟨by decide, by decide, instance_registration_entries clsWit (by decide) (by decide)⟩

end Ipcutil
